import Mathlib

/-
Verification of KarelKubat/pylib: a shallow embedding of `acidfile.py`
(atomic rename-based file staging) and `rotlog.py` (rotating log sink),
with theorems settling the specification claims.

The filesystem is modelled as an association list from path names to file
contents; `os.path.exists`, `os.unlink`, `os.rename` and `open(..., 'w')`
become pure operations on that list.  Byte payloads are `List Nat`, log
text is `String`.
-/

namespace Pylib

/-- A filesystem: association list from path to contents (first binding wins). -/
abbrev FS (α : Type) := List (String × α)

/-- Contents of a path, `none` when the path does not exist (`os.path.exists` is false). -/
def lookupFS {α : Type} (fs : FS α) (name : String) : Option α :=
  List.lookup name fs

/-- The check `os.path.exists`. -/
def existsFS {α : Type} (fs : FS α) (name : String) : Bool :=
  (lookupFS fs name).isSome

/-- The call `os.unlink`: remove every binding of `name`. -/
def unlinkFS {α : Type} (fs : FS α) (name : String) : FS α :=
  fs.filter (fun e => decide (e.1 ≠ name))

/-- Create or truncate-and-write a file: `name` now holds exactly `c`. -/
def writeFS {α : Type} (fs : FS α) (name : String) (c : α) : FS α :=
  (name, c) :: unlinkFS fs name

/-- The call `os.rename src dst`: fails (raises `OSError`) when `src` does not exist,
otherwise moves the contents, silently replacing any existing `dst`. -/
def renameFS {α : Type} (fs : FS α) (src dst : String) : Option (FS α) :=
  match lookupFS fs src with
  | some c => some (writeFS (unlinkFS fs src) dst c)
  | none => none

/-- A directory listing: the names present in the filesystem. -/
def listingFS {α : Type} (fs : FS α) : List String :=
  fs.map (fun e => e.1)

theorem lookupFS_nil {α : Type} (n : String) : lookupFS ([] : FS α) n = none := rfl

theorem lookupFS_cons {α : Type} (k : String) (v : α) (fs : FS α) (n : String) :
    lookupFS ((k, v) :: fs) n = if n = k then some v else lookupFS fs n := by
  by_cases h : n = k
  · simp [lookupFS, List.lookup, h]
  · have hb : (n == k) = false := beq_eq_false_iff_ne.mpr h
    simp [lookupFS, List.lookup, hb, h]

theorem unlinkFS_cons {α : Type} (k : String) (v : α) (fs : FS α) (n : String) :
    unlinkFS ((k, v) :: fs) n =
      if k = n then unlinkFS fs n else (k, v) :: unlinkFS fs n := by
  by_cases h : k = n <;> simp [unlinkFS, List.filter_cons, h]

theorem lookupFS_unlink_self {α : Type} (fs : FS α) (n : String) :
    lookupFS (unlinkFS fs n) n = none := by
  induction fs with
  | nil => rfl
  | cons e fs ih =>
    obtain ⟨k, v⟩ := e
    by_cases h : k = n
    · simpa [unlinkFS_cons, h] using ih
    · have hn : n ≠ k := fun hc => h hc.symm
      simpa [unlinkFS_cons, h, lookupFS_cons, hn] using ih

theorem lookupFS_unlink_ne {α : Type} (fs : FS α) {m n : String} (h : m ≠ n) :
    lookupFS (unlinkFS fs n) m = lookupFS fs m := by
  induction fs with
  | nil => rfl
  | cons e fs ih =>
    obtain ⟨k, v⟩ := e
    by_cases he : k = n
    · subst he
      simpa [unlinkFS_cons, lookupFS_cons, h] using ih
    · by_cases hm : m = k
      · simp [unlinkFS_cons, he, lookupFS_cons, hm]
      · simpa [unlinkFS_cons, he, lookupFS_cons, hm] using ih

theorem lookupFS_write_self {α : Type} (fs : FS α) (n : String) (c : α) :
    lookupFS (writeFS fs n c) n = some c := by
  simp [writeFS, lookupFS_cons]

theorem lookupFS_write_ne {α : Type} (fs : FS α) {m n : String} (c : α) (h : m ≠ n) :
    lookupFS (writeFS fs n c) m = lookupFS fs m := by
  simp [writeFS, lookupFS_cons, h, lookupFS_unlink_ne fs h]

theorem mem_listingFS {α : Type} (fs : FS α) (n : String) :
    n ∈ listingFS fs ↔ (lookupFS fs n).isSome := by
  induction fs with
  | nil => simp [listingFS, lookupFS_nil]
  | cons e fs ih =>
    obtain ⟨k, v⟩ := e
    by_cases h : n = k
    · simp [listingFS, lookupFS_cons, h]
    · rw [listingFS, List.map_cons]
      simp only [List.mem_cons, lookupFS_cons, h, if_false]
      rw [listingFS] at ih
      simp [h, ih]

/-! ## acidfile.py : staging names -/

/-- The staging name `'%s.%d.acid' % (filename, os.getpid())` of `filename`. -/
def stagingName (filename : String) (pid : Nat) : String :=
  filename ++ "." ++ toString pid ++ ".acid"

theorem stagingName_ne (filename : String) (pid : Nat) :
    stagingName filename pid ≠ filename := by
  intro h
  have hl := congrArg String.length h
  rw [stagingName] at hl
  simp only [String.length_append] at hl
  have h1 : String.length "." = 1 := rfl
  have h5 : String.length ".acid" = 5 := rfl
  omega

/-! ## acidfile.py : ACIDWriteFile -/

/-- The fields `_filename` and `_tmpname` of an `ACIDWriteFile` instance. -/
structure ACIDWriteFile where
  filename : String
  tmpname : String
deriving DecidableEq

/-- The constructor `ACIDWriteFile.__init__`: compute the staging name, unlink the destination
if it exists, and open (create empty) the staging file for writing. -/
def acidWriteOpen {α : Type} (empty : α) (fs : FS α) (filename : String) (pid : Nat) :
    FS α × ACIDWriteFile :=
  let tmp := stagingName filename pid
  let fs1 := if existsFS fs filename then unlinkFS fs filename else fs
  (writeFS fs1 tmp empty, ⟨filename, tmp⟩)

/-- The method `ACIDWriteFile.write`: append to the open staging file. -/
def acidWrite (fs : FS (List Nat)) (w : ACIDWriteFile) (stuff : List Nat) : FS (List Nat) :=
  match lookupFS fs w.tmpname with
  | some c => writeFS fs w.tmpname (c ++ stuff)
  | none => fs

/-- The method `ACIDWriteFile.__exit__`: close the staging file and atomically rename it
to the requested output name. -/
def acidWriteClose {α : Type} (fs : FS α) (w : ACIDWriteFile) : Option (FS α) :=
  renameFS fs w.tmpname w.filename

/-! ## acidfile.py : ACIDReadFile -/

/-- The fields `_filename` and `_tmpname` of an `ACIDReadFile` instance. -/
structure ACIDReadFile where
  filename : String
  tmpname : String
deriving DecidableEq

/-- The constructor `ACIDReadFile.__init__`: raise `FileNotFoundError` when the source does
not exist (the `open(filename, 'rb')` of a missing path), otherwise rename
the source to the staging name and open that for reading. -/
def acidReadOpen {α : Type} (fs : FS α) (filename : String) (pid : Nat) :
    Option (FS α × ACIDReadFile) :=
  let tmp := stagingName filename pid
  if existsFS fs filename then
    (renameFS fs filename tmp).map (fun fs1 => (fs1, ⟨filename, tmp⟩))
  else
    none

/-- The method `ACIDReadFile.read()` with no argument: the whole contents of the staged file. -/
def acidReadAll {α : Type} (fs : FS α) (r : ACIDReadFile) : Option α :=
  lookupFS fs r.tmpname

/-- The method `ACIDReadFile.__exit__`: close the staged file and rename it back to the
original name. -/
def acidReadClose {α : Type} (fs : FS α) (r : ACIDReadFile) : Option (FS α) :=
  renameFS fs r.tmpname r.filename

/-! ## acidfile.py : ACIDReadFile attribute model for `infile()` -/

/-- The instance attributes assigned by `ACIDReadFile.__init__`, in source
order: `_filename`, `_tmpname`, `_infile`.  No other attribute is ever set
on an `ACIDReadFile` instance. -/
def acidReadAttrs : List String := ["_filename", "_tmpname", "_infile"]

/-- Python attribute access: `some ()` when the attribute exists on the
instance, `none` for the `AttributeError` raised otherwise. -/
def pyGetattr (attrs : List String) (name : String) : Option Unit :=
  if attrs.contains name then some () else none

/-- The body of `ACIDReadFile.infile`: `return self._outfile`. -/
def acidReadInfileCall (attrs : List String) : Option Unit :=
  pyGetattr attrs "_outfile"

/-! ## acidfile.py : ACIDDir -/

/-- Python `str.endswith`: true when the pattern is a character-level
suffix of the string. -/
def pyEndsWith (s pat : String) : Bool :=
  pat.data.isSuffixOf s.data

/-- The deletion loop of `ACIDDir.glob`: `i = 0; while i < len(files): ...`,
removing in place every entry that ends with `'acid'`. -/
def globLoop (i : Nat) (files : List String) : List String :=
  if h : i < files.length then
    if pyEndsWith files[i] "acid" then
      globLoop i (files.take i ++ files.drop (i + 1))
    else
      globLoop (i + 1) files
  else
    files
termination_by files.length - i
decreasing_by
  · simp only [List.length_append, List.length_take, List.length_drop]
    omega
  · omega

/-- The method `ACIDDir.glob`: filter the raw glob listing (passed in as `files`) by the
in-place deletion loop. -/
def acidDirGlob (files : List String) : List String :=
  globLoop 0 files

/-- The predicate kept by the loop: entries that do not end in the token
`acid`. -/
def notStaged (f : String) : Bool :=
  !(pyEndsWith f "acid")

theorem globLoop_eq_filter_aux (n : Nat) :
    ∀ (files : List String) (i : Nat), files.length - i ≤ n →
      globLoop i files = files.take i ++ (files.drop i).filter notStaged := by
  induction n with
  | zero =>
    intro files i h
    have hle : files.length ≤ i := by omega
    rw [globLoop]
    simp [Nat.not_lt.mpr hle, List.take_of_length_le hle, List.drop_eq_nil_of_le hle]
  | succ n ih =>
    intro files i h
    rw [globLoop]
    by_cases hi : i < files.length
    · have hdrop : files.drop i = files[i] :: files.drop (i + 1) :=
        List.drop_eq_getElem_cons hi
      have htlen : (files.take i).length = i := by
        simp [List.length_take, Nat.min_eq_left (Nat.le_of_lt hi)]
      by_cases hacid : pyEndsWith files[i] "acid"
      · have hrec : (files.take i ++ files.drop (i + 1)).length - i ≤ n := by
          simp only [List.length_append, List.length_drop, htlen]
          omega
        rw [dif_pos hi, if_pos hacid, ih _ _ hrec]
        have h1 := List.take_left (files.take i) (files.drop (i + 1))
        rw [htlen] at h1
        have h2 := List.drop_left (files.take i) (files.drop (i + 1))
        rw [htlen] at h2
        rw [h1, h2, hdrop, List.filter_cons]
        simp [notStaged, hacid]
      · have hrec : files.length - (i + 1) ≤ n := by omega
        rw [dif_pos hi, if_neg hacid, ih _ _ hrec]
        have h3 : files.take (i + 1) = files.take i ++ [files[i]] := by
          rw [List.take_succ]
          simp [List.getElem?_eq_getElem hi]
        have hp : notStaged files[i] = true := by simp [notStaged, hacid]
        rw [h3, hdrop, List.filter_cons, if_pos hp, List.append_assoc,
          List.singleton_append]
    · rw [dif_neg hi]
      have hle : files.length ≤ i := Nat.not_lt.mp hi
      simp [List.take_of_length_le hle, List.drop_eq_nil_of_le hle]

theorem acidDirGlob_eq_filter (files : List String) :
    acidDirGlob files = files.filter notStaged := by
  simpa using globLoop_eq_filter_aux files.length files 0 (by omega)

/-! ## rotlog.py : timestamp model -/

/-- A broken-down local time together with its epoch-seconds value. -/
structure Tm where
  year : Nat
  month : Nat
  day : Nat
  hour : Nat
  minute : Nat
  second : Nat
  epoch : Nat
deriving DecidableEq

/-- Two-digit zero padding, as `strftime` renders its numeric fields. -/
def pad2 (n : Nat) : String :=
  if n < 10 then "0" ++ toString n else toString n

/-- One `strftime` conversion: the directives used by the repository, plus
lowercase `%s`, which glibc renders as the seconds since the epoch (it is
not a zero-padded seconds field; that is uppercase `%S`). -/
def strftimeDirective (t : Tm) : Char → String
  | 'Y' => toString t.year
  | 'm' => pad2 t.month
  | 'd' => pad2 t.day
  | 'H' => pad2 t.hour
  | 'M' => pad2 t.minute
  | 'S' => pad2 t.second
  | 's' => toString t.epoch
  | c => "%" ++ String.singleton c

/-- Character-level expansion of a `strftime` format string. -/
def strftimeChars (t : Tm) : List Char → List Char
  | [] => []
  | '%' :: c :: rest => (strftimeDirective t c).data ++ strftimeChars t rest
  | c :: rest => c :: strftimeChars t rest

/-- The function `time.strftime`, restricted to the directives the
repository uses. -/
def strftime (t : Tm) (fmt : String) : String :=
  String.mk (strftimeChars t fmt.data)

/-- The format literal in `RotLog._output`; note the final lowercase `%s`. -/
def rotlogTimestampFmt : String := "%Y-%m-%d %H:%M:%s"

/-! ## rotlog.py : RotLog construction and rotation -/

/-- The log path `'%s/%s' % (basedir, basename)`. -/
def logname (basedir basename : String) : String :=
  basedir ++ "/" ++ basename

/-- The index sequence `range(n, 0, -1)`: the list `[n, ..., 1]`. -/
def downRange : Nat → List Nat
  | 0 => []
  | n + 1 => (n + 1) :: downRange n

/-- One iteration of the rotation loop of `RotLog.__init__`: if
`<logname>-i` exists, delete `<logname>-(i+1)` if present and rename
`<logname>-i` to `<logname>-(i+1)`. -/
def rotStep (ln : String) (fs : FS String) (i : Nat) : FS String :=
  let thisfile := ln ++ "-" ++ toString i
  let prevfile := ln ++ "-" ++ toString (i + 1)
  if existsFS fs thisfile then
    let fs1 := if existsFS fs prevfile then unlinkFS fs prevfile else fs
    (renameFS fs1 thisfile prevfile).getD fs1
  else
    fs

/-- The constructor `RotLog.__init__` on the filesystem: the rotation
shift with its hard-coded `range(9, 0, -1)` loop (the `versions` parameter
is accepted but never read by the loop, exactly as in the source), then the
rename of the base log to `<logname>-1` when it exists, then the fresh
`open(self._logname, 'w')`. -/
def rotInit (fs : FS String) (basedir basename : String) (versions : Nat) : FS String :=
  let ln := logname basedir basename
  let fs1 := (downRange 9).foldl (rotStep ln) fs
  let fs2 := if existsFS fs1 ln then (renameFS fs1 ln (ln ++ "-1")).getD fs1 else fs1
  writeFS fs2 ln ""

/-! ## rotlog.py : message emission -/

/-- The console stream handed to `RotLog._output` (`sys.stdout` or
`sys.stderr`). -/
inductive ConsoleStream
  | stdout
  | stderr
deriving DecidableEq

/-- Everything one logging call emits: console lines per stream, lines
appended to the log file, and the process exit status it forces, if any. -/
structure EmitResult where
  stdoutLines : List String
  stderrLines : List String
  fileLines : List String
  exitCode : Option Nat
deriving DecidableEq

/-- The string `outputstr = tag + ' ' + msg + '\n'` built by `RotLog._output`. -/
def outputLine (tag msg : String) : String :=
  tag ++ " " ++ msg ++ "\n"

/-- The method `RotLog._output`: write `outputstr` to the given console
stream and the timestamped copy to the log file. -/
def rotOutput (s : ConsoleStream) (t : Tm) (tag msg : String) : EmitResult :=
  { stdoutLines := match s with | .stdout => [outputLine tag msg] | .stderr => []
    stderrLines := match s with | .stdout => [] | .stderr => [outputLine tag msg]
    fileLines := [strftime t rotlogTimestampFmt ++ " " ++ outputLine tag msg]
    exitCode := none }

/-- The result of a logging call that emits nothing. -/
def emptyEmit : EmitResult :=
  { stdoutLines := [], stderrLines := [], fileLines := [], exitCode := none }

/-- The method `RotLog.debug`: calls `_output(sys.stdout, 'DEBUG', ...)`
only when `self._verbose` is set. -/
def rotDebug (verbose : Bool) (t : Tm) (msg : String) : EmitResult :=
  if verbose then rotOutput .stdout t "DEBUG" msg else emptyEmit

/-- The method `RotLog.info`: `_output(sys.stdout, 'INFO', ...)`. -/
def rotInfo (t : Tm) (msg : String) : EmitResult :=
  rotOutput .stdout t "INFO" msg

/-- The method `RotLog.warn`: `_output(sys.stderr, 'WARN', ...)`. -/
def rotWarn (t : Tm) (msg : String) : EmitResult :=
  rotOutput .stderr t "WARN" msg

/-- The method `RotLog.fatal`: `_output(sys.stderr, 'FATAL', ...)` followed
by `sys.exit(1)`. -/
def rotFatal (t : Tm) (msg : String) : EmitResult :=
  { rotOutput .stderr t "FATAL" msg with exitCode := some 1 }

/-! ## The size-triggered sink variant -/

/-- Modelled from the spec: the configuration surface of the size-triggered
RotatingLogSink variant, which is missing from src/ (src/rotlog.py holds
only the startup-triggered variant); the defaults follow the spec
(`maxSizeBytes` default 100000, `versionCount` default 10, `programTag`
default none, `verbose` default false), with `maxSizeBytes = 0` meaning
never rotate by size. -/
structure RotConfig where
  basePath : String
  maxSizeBytes : Nat := 100000
  versionCount : Nat := 10
  programTag : Option String := none
  verbose : Bool := false
deriving DecidableEq

/-- A configuration where only `basePath` is given, all other options at
their defaults. -/
def rotConfigDefault (p : String) : RotConfig :=
  { basePath := p }

/-- Modelled from the spec: the rotation shift of the size-triggered
variant — for i from `versionCount - 1` down to 1, if `basePath-i` exists,
delete `basePath-(i+1)` if present and rename `basePath-i` to
`basePath-(i+1)`; finally rename `basePath` to `basePath-1`. -/
def rotShiftSpec (ln : String) (versionCount : Nat) (fs : FS String) : FS String :=
  let fs1 := (downRange (versionCount - 1)).foldl (rotStep ln) fs
  if existsFS fs1 ln then (renameFS fs1 ln (ln ++ "-1")).getD fs1 else fs1

/-- Modelled from the spec: one write of the size-triggered variant —
append the line to the current file; then, if `maxSizeBytes` is set
(nonzero) and the file's current size has reached or exceeded it, close the
current handle, perform the rotation shift, and reopen a fresh empty file
at `basePath`. -/
def sizeWrite (cfg : RotConfig) (fs : FS String) (line : String) : FS String :=
  let old := (lookupFS fs cfg.basePath).getD ""
  let fs1 := writeFS fs cfg.basePath (old ++ line)
  if cfg.maxSizeBytes ≠ 0 ∧ cfg.maxSizeBytes ≤ (old ++ line).length then
    writeFS (rotShiftSpec cfg.basePath cfg.versionCount fs1) cfg.basePath ""
  else
    fs1

/-! ## Support lemmas for the claims -/

theorem lookupFS_eq_none_of_not_exists {α : Type} {fs : FS α} {n : String}
    (h : ¬ existsFS fs n = true) : lookupFS fs n = none := by
  cases hl : lookupFS fs n with
  | none => rfl
  | some v => exact absurd (by rw [existsFS, hl]; rfl) h

theorem existsFS_eq_true {α : Type} {fs : FS α} {n : String} {c : α}
    (h : lookupFS fs n = some c) : existsFS fs n = true := by
  rw [existsFS, h]; rfl

theorem acidReadOpen_eq_some {α : Type} (fs : FS α) (f : String) (pid : Nat) {c : α}
    (hc : lookupFS fs f = some c) :
    acidReadOpen fs f pid =
      some (writeFS (unlinkFS fs f) (stagingName f pid) c, ⟨f, stagingName f pid⟩) := by
  simp [acidReadOpen, existsFS_eq_true hc, renameFS, hc]

theorem acidReadOpen_eq_none {α : Type} (fs : FS α) (f : String) (pid : Nat)
    (hc : lookupFS fs f = none) : acidReadOpen fs f pid = none := by
  have hex : existsFS fs f = false := by rw [existsFS, hc]; rfl
  simp [acidReadOpen, hex]

/-- The startup shift of `RotLog.__init__` coincides with the generic shift
at the fixed bound 10, whatever `versions` is passed. -/
theorem rotInit_eq_shift_ten (fs : FS String) (basedir basename : String) (versions : Nat) :
    rotInit fs basedir basename versions =
      writeFS (rotShiftSpec (logname basedir basename) 10 fs) (logname basedir basename) "" := rfl

/-! ## The claims -/

/-- C1: for every filename f and byte payload b, after constructing an
ACIDWriteFile on f, writing b, and closing it, the file at f contains
exactly b; f is absent from every directory listing taken strictly between
open and close (here: after open and after write), and present immediately
after close. -/
theorem acid_writer_atomic_publish (fs : FS (List Nat)) (f : String) (pid : Nat) (b : List Nat) :
    f ∉ listingFS (acidWriteOpen [] fs f pid).1 ∧
    f ∉ listingFS (acidWrite (acidWriteOpen [] fs f pid).1 (acidWriteOpen [] fs f pid).2 b) ∧
    ∃ fs3,
      acidWriteClose (acidWrite (acidWriteOpen [] fs f pid).1 (acidWriteOpen [] fs f pid).2 b)
        (acidWriteOpen [] fs f pid).2 = some fs3 ∧
      lookupFS fs3 f = some b ∧ f ∈ listingFS fs3 := by
  have hne : f ≠ stagingName f pid := (stagingName_ne f pid).symm
  have hopen1 : (acidWriteOpen ([] : List Nat) fs f pid).1 =
      writeFS (if existsFS fs f then unlinkFS fs f else fs) (stagingName f pid) [] := rfl
  have hopen2 : (acidWriteOpen ([] : List Nat) fs f pid).2 =
      ⟨f, stagingName f pid⟩ := rfl
  have hf0 : lookupFS (if existsFS fs f then unlinkFS fs f else fs) f = none := by
    by_cases h : existsFS fs f = true
    · rw [if_pos h]
      exact lookupFS_unlink_self fs f
    · rw [if_neg h]
      exact lookupFS_eq_none_of_not_exists h
  have hw : acidWrite (acidWriteOpen ([] : List Nat) fs f pid).1
      (acidWriteOpen [] fs f pid).2 b =
      writeFS (acidWriteOpen ([] : List Nat) fs f pid).1 (stagingName f pid) b := by
    have hs : lookupFS (acidWriteOpen ([] : List Nat) fs f pid).1 (stagingName f pid) =
        some [] := by
      rw [hopen1]
      exact lookupFS_write_self _ _ _
    simp [acidWrite, hopen2, hs]
  rw [hw, hopen2, hopen1]
  refine ⟨?_, ?_,
    writeFS (unlinkFS (writeFS (writeFS (if existsFS fs f then unlinkFS fs f else fs)
      (stagingName f pid) []) (stagingName f pid) b) (stagingName f pid)) f b, ?_, ?_, ?_⟩
  · rw [mem_listingFS, lookupFS_write_ne _ _ hne, hf0]
    simp
  · rw [mem_listingFS, lookupFS_write_ne _ _ hne, lookupFS_write_ne _ _ hne, hf0]
    simp
  · simp [acidWriteClose, renameFS, lookupFS_write_self]
  · exact lookupFS_write_self _ _ _
  · rw [mem_listingFS, lookupFS_write_self]
    simp

/-- Closed instance of C1 at a concrete filesystem, filename, pid and payload. -/
theorem acid_writer_atomic_publish_witness :
    "f" ∉ listingFS (acidWriteOpen ([] : List Nat) ([] : FS (List Nat)) "f" 5).1 :=
  (acid_writer_atomic_publish [] "f" 5 [7]).1

/-- C2: ACIDReadFile construction on f fails with NotFound exactly when f
does not currently exist under its public name; while one reader holds f,
the public name is absent, so a second open by any reader fails; after the
holding reader closes, a fresh open of f succeeds and returns the original
content unchanged. -/
theorem acid_reader_exclusive {α : Type} (fs : FS α) (f : String) (pid : Nat) :
    (acidReadOpen fs f pid = none ↔ lookupFS fs f = none) ∧
    ∀ fs1 r pid2, acidReadOpen fs f pid = some (fs1, r) →
      lookupFS fs1 f = none ∧
      acidReadOpen fs1 f pid2 = none ∧
      ∃ fs2, acidReadClose fs1 r = some fs2 ∧
        lookupFS fs2 f = lookupFS fs f ∧
        ∀ pid3, ∃ fs3 r3, acidReadOpen fs2 f pid3 = some (fs3, r3) ∧
          acidReadAll fs3 r3 = lookupFS fs f := by
  cases hc : lookupFS fs f with
  | none =>
    have hopen := acidReadOpen_eq_none fs f pid hc
    refine ⟨by simp [hopen, hc], ?_⟩
    intro fs1 r pid2 h
    rw [hopen] at h
    exact Option.noConfusion h
  | some c =>
    have hopen := acidReadOpen_eq_some fs f pid hc
    constructor
    · rw [hopen]
      simp [hc]
    · intro fs1 r pid2 h
      rw [hopen] at h
      injection h with h'
      injection h' with hfs hr
      subst hfs
      subst hr
      have hf1 : lookupFS (writeFS (unlinkFS fs f) (stagingName f pid) c) f = none := by
        rw [lookupFS_write_ne _ _ (stagingName_ne f pid).symm, lookupFS_unlink_self]
      refine ⟨hf1, acidReadOpen_eq_none _ f pid2 hf1, ?_⟩
      have htmp : lookupFS (writeFS (unlinkFS fs f) (stagingName f pid) c)
          (stagingName f pid) = some c := lookupFS_write_self _ _ _
      refine ⟨writeFS (unlinkFS (writeFS (unlinkFS fs f) (stagingName f pid) c)
        (stagingName f pid)) f c, ?_, ?_, ?_⟩
      · simp [acidReadClose, renameFS, htmp]
      · exact lookupFS_write_self _ _ _
      · intro pid3
        have hc2 : lookupFS (writeFS (unlinkFS (writeFS (unlinkFS fs f)
            (stagingName f pid) c) (stagingName f pid)) f c) f = some c :=
          lookupFS_write_self _ _ _
        refine ⟨_, _, acidReadOpen_eq_some _ f pid3 hc2, ?_⟩
        exact lookupFS_write_self _ _ _

/-- Closed instance of C2: while a reader holds f (staged as f.5.acid), a
second open fails; closing restores f with its original content. -/
theorem acid_reader_exclusive_witness :
    acidReadOpen ([("f.5.acid", [1, 2])] : FS (List Nat)) "f" 7 = none ∧
    ∃ fs2, acidReadClose ([("f.5.acid", [1, 2])] : FS (List Nat))
        ⟨"f", "f.5.acid"⟩ = some fs2 ∧
      lookupFS fs2 "f" = lookupFS ([("f", [1, 2])] : FS (List Nat)) "f" := by
  have h := (acid_reader_exclusive ([("f", [1, 2])] : FS (List Nat)) "f" 5).2
    [("f.5.acid", [1, 2])] ⟨"f", "f.5.acid"⟩ 7 (by decide)
  obtain ⟨h1, h2, fs2, h3, h4, h5⟩ := h
  exact ⟨h2, fs2, h3, h4⟩

/-- C5: ACIDDir.glob returns exactly the pattern-matching entries whose
names do not end with the staging token acid; no entry whose name ends with
acid is ever included in the result. -/
theorem acid_dir_glob_excludes_staged (files : List String) :
    acidDirGlob files = files.filter notStaged ∧
    ∀ f ∈ acidDirGlob files, pyEndsWith f "acid" = false := by
  refine ⟨acidDirGlob_eq_filter files, ?_⟩
  intro f hf
  rw [acidDirGlob_eq_filter] at hf
  have hmem := List.of_mem_filter hf
  simpa [notStaged] using hmem

/-- Closed instance of C5 on a mixed listing of published and staged names. -/
theorem acid_dir_glob_excludes_staged_witness :
    acidDirGlob ["a.txt", "b.7.acid", "c"] = ["a.txt", "c"] ∧
    pyEndsWith "a.txt" "acid" = false := by
  have h := acid_dir_glob_excludes_staged ["a.txt", "b.7.acid", "c"]
  have h1 : acidDirGlob ["a.txt", "b.7.acid", "c"] = ["a.txt", "c"] := by
    rw [h.1]
    decide
  exact ⟨h1, h.2 "a.txt" (by rw [h1]; decide)⟩

/-- C10: the accessor infile() returns self._outfile, an attribute that
ACIDReadFile.__init__ never sets (it sets only _filename, _tmpname and
_infile), so every call raises AttributeError instead of returning the
reader's handle. -/
theorem acid_read_infile_unconditionally_fails :
    acidReadInfileCall acidReadAttrs = none ∧
    "_outfile" ∉ acidReadAttrs ∧ "_infile" ∈ acidReadAttrs := by
  refine ⟨rfl, by decide, by decide⟩

/-- C3 (failing input): with versionCount 3 and the historical files
basePath-1..basePath-3 present, the hard-coded range(9, 0, -1) rotation loop
of RotLog.__init__ renames basePath-3 to basePath-4, so a fourth historical
file exists, violating the claimed invariant that rotation never creates a
file beyond basePath-versionCount. -/
theorem rotlog_retention_bound_violated :
    lookupFS (rotInit [(logname "d" "lg", "c0"), (logname "d" "lg" ++ "-1", "c1"),
        (logname "d" "lg" ++ "-2", "c2"), (logname "d" "lg" ++ "-3", "c3")] "d" "lg" 3)
      (logname "d" "lg" ++ "-4") = some "c3" := by
  decide

/-- C4 (failing input): with versionCount 2 the claimed loop runs i from
versionCount - 1 = 1 down to 1 and would never touch basePath-2, but the
code loops over range(9, 0, -1) regardless of the versions argument, so a
construction with versions = 2 moves basePath-2 to basePath-3. -/
theorem rotlog_loop_bound_not_from_versions :
    lookupFS (rotInit [(logname "d" "lg", "a"), (logname "d" "lg" ++ "-2", "b")] "d" "lg" 2)
      (logname "d" "lg" ++ "-3") = some "b" ∧
    lookupFS (rotInit [(logname "d" "lg", "a"), (logname "d" "lg" ++ "-2", "b")] "d" "lg" 2)
      (logname "d" "lg" ++ "-2") = none ∧
    lookupFS (rotInit [(logname "d" "lg", "a"), (logname "d" "lg" ++ "-2", "b")] "d" "lg" 2)
      (logname "d" "lg") = some "" := by
  exact ⟨by decide, by decide, by decide⟩

/-- C6: in the size-triggered variant (modelled from the spec, since src/
holds only the startup-triggered variant), maxSizeBytes is a recognized
option with default 100000; after a write that makes the current file reach
or exceed maxSizeBytes (when nonzero), the sink performs the rotation shift
bounded by versionCount and reopens a fresh empty file at basePath;
otherwise the write only appends. -/
theorem size_triggered_rotation (p line : String) (cfg : RotConfig) (fs : FS String) :
    (rotConfigDefault p).maxSizeBytes = 100000 ∧
    (cfg.maxSizeBytes ≠ 0 →
      cfg.maxSizeBytes ≤ (((lookupFS fs cfg.basePath).getD "") ++ line).length →
      sizeWrite cfg fs line =
        writeFS (rotShiftSpec cfg.basePath cfg.versionCount
          (writeFS fs cfg.basePath (((lookupFS fs cfg.basePath).getD "") ++ line)))
          cfg.basePath "" ∧
      lookupFS (sizeWrite cfg fs line) cfg.basePath = some "") ∧
    (cfg.maxSizeBytes = 0 →
      sizeWrite cfg fs line =
        writeFS fs cfg.basePath (((lookupFS fs cfg.basePath).getD "") ++ line)) := by
  refine ⟨rfl, fun h1 h2 => ?_, fun h0 => ?_⟩
  · have he : sizeWrite cfg fs line =
        writeFS (rotShiftSpec cfg.basePath cfg.versionCount
          (writeFS fs cfg.basePath (((lookupFS fs cfg.basePath).getD "") ++ line)))
          cfg.basePath "" := by
      show (if cfg.maxSizeBytes ≠ 0 ∧
              cfg.maxSizeBytes ≤ (((lookupFS fs cfg.basePath).getD "") ++ line).length then
            writeFS (rotShiftSpec cfg.basePath cfg.versionCount
              (writeFS fs cfg.basePath (((lookupFS fs cfg.basePath).getD "") ++ line)))
              cfg.basePath ""
          else
            writeFS fs cfg.basePath (((lookupFS fs cfg.basePath).getD "") ++ line)) = _
      rw [if_pos ⟨h1, h2⟩]
    refine ⟨he, ?_⟩
    rw [he]
    exact lookupFS_write_self _ _ _
  · show (if cfg.maxSizeBytes ≠ 0 ∧
            cfg.maxSizeBytes ≤ (((lookupFS fs cfg.basePath).getD "") ++ line).length then
          writeFS (rotShiftSpec cfg.basePath cfg.versionCount
            (writeFS fs cfg.basePath (((lookupFS fs cfg.basePath).getD "") ++ line)))
            cfg.basePath ""
        else
          writeFS fs cfg.basePath (((lookupFS fs cfg.basePath).getD "") ++ line)) = _
    rw [if_neg (fun hand => hand.1 h0)]

/-- Closed instance of C6: with maxSizeBytes 3 a 4-character write triggers
rotation and leaves an empty live file at basePath. -/
theorem size_triggered_rotation_witness :
    lookupFS (sizeWrite ⟨"log", 3, 2, none, false⟩ [] "abcd") "log" = some "" := by
  have h := (size_triggered_rotation "p" "abcd"
    (⟨"log", 3, 2, none, false⟩ : RotConfig) []).2.1 (by decide) (by decide)
  exact h.2

/-- The wall-clock instant used for concrete timestamp evaluation:
2026-10-12 14:30:00 local time, epoch seconds 1760279400. -/
def sampleTm : Tm :=
  ⟨2026, 10, 12, 14, 30, 0, 1760279400⟩

/-- C7 (failing input): the format literal of RotLog._output ends in
lowercase %s, rendered as the seconds since the epoch, not the two-digit
seconds field %S; so the file line starts year-month-day hour:minute:epoch
instead of the claimed "YYYY-MM-DD HH:MM:SS". -/
theorem rotlog_timestamp_not_claimed_format :
    (rotInfo sampleTm "hi").fileLines = ["2026-10-12 14:30:1760279400 INFO hi\n"] ∧
    strftime sampleTm rotlogTimestampFmt ≠ strftime sampleTm "%Y-%m-%d %H:%M:%S" ∧
    strftime sampleTm "%Y-%m-%d %H:%M:%S" = "2026-10-12 14:30:00" := by
  refine ⟨by decide, by decide, by decide⟩

/-- C8: fatal writes its message (to stderr and to the log file) and then
terminates the process with exit status 1; debug, info and warn never
terminate the process. -/
theorem rotlog_fatal_exits_others_dont (v : Bool) (t : Tm) (msg : String) :
    (rotFatal t msg).exitCode = some 1 ∧
    (rotFatal t msg).stderrLines = [outputLine "FATAL" msg] ∧
    (rotFatal t msg).fileLines =
      [strftime t rotlogTimestampFmt ++ " " ++ outputLine "FATAL" msg] ∧
    (rotDebug v t msg).exitCode = none ∧
    (rotInfo t msg).exitCode = none ∧
    (rotWarn t msg).exitCode = none := by
  refine ⟨rfl, rfl, rfl, ?_, rfl, rfl⟩
  cases v <;> rfl

/-- Closed instance of C8 at a concrete time and message. -/
theorem rotlog_fatal_exits_others_dont_witness :
    (rotFatal sampleTm "x").exitCode = some 1 :=
  (rotlog_fatal_exits_others_dont true sampleTm "x").1

/-- C9: with verbose false, a debug call emits nothing to the console or
the log file; with verbose true, the same call writes the DEBUG-tagged
message to stdout and its timestamped copy to the log file. -/
theorem rotlog_debug_verbosity_gating (t : Tm) (msg : String) :
    rotDebug false t msg = emptyEmit ∧
    (rotDebug false t msg).stdoutLines = [] ∧
    (rotDebug false t msg).fileLines = [] ∧
    (rotDebug true t msg).stdoutLines = [outputLine "DEBUG" msg] ∧
    (rotDebug true t msg).fileLines =
      [strftime t rotlogTimestampFmt ++ " " ++ outputLine "DEBUG" msg] := by
  exact ⟨rfl, rfl, rfl, rfl, rfl⟩

/-- Closed instance of C9 at a concrete time and message. -/
theorem rotlog_debug_verbosity_gating_witness :
    rotDebug false sampleTm "x" = emptyEmit :=
  (rotlog_debug_verbosity_gating sampleTm "x").1

end Pylib
